import Mathlib

/-!
# Ripes: `ProcessorTab` (src/processortab.cpp)

A shallow embedding of the toolbar controller of the Ripes processor tab.

* The toolkit objects the controller owns (`QAction`, `QTimer`, `QSpinBox`) are
  records holding exactly the properties the controller reads or writes; their
  setters follow the toolkit's documented behaviour (a setter that does not
  change the property emits no signal).
* The collaborators that live outside `processortab.cpp` (the `Pipeline`
  singleton, the `ProcessorHandler`, the VSRTL surface and the run dialog) act
  on one abstract world state `σ` and are taken as a record of operations,
  `Env σ`.
* Signals are delivered synchronously: a slot connected to a signal runs
  inside the `emit`.
* Machine integers are `Int` with explicit reduction modulo `2 ^ 32`.
-/

namespace Ripes

/-! ## Machine integers -/

/-- Conversion of an integer to `uint32_t`: reduction modulo `2 ^ 32`. -/
def toUInt32 (x : Int) : Int := x % 2 ^ 32

/-- Conversion of an integer to a 32-bit two's-complement `int`. -/
def toInt32 (x : Int) : Int :=
  if x % 2 ^ 32 < 2 ^ 31 then x % 2 ^ 32 else x % 2 ^ 32 - 2 ^ 32

/-! ## Toolkit objects -/

/-- The properties of a `QAction` used by the controller. -/
structure QAction where
  enabled : Bool
  checkable : Bool
  checked : Bool
  deriving DecidableEq, Repr

/-- A freshly constructed action: enabled, not checkable, not checked. -/
def QAction.new : QAction := ⟨true, false, false⟩

/-- Embeds `QAction::setEnabled`. -/
def QAction.setEnabled (a : QAction) (b : Bool) : QAction := { a with enabled := b }

/-- Embeds `QAction::setCheckable`. -/
def QAction.setCheckable (a : QAction) (b : Bool) : QAction := { a with checkable := b }

/-- Embeds `QAction::setChecked`: nothing happens on an action that is not checkable
or already in the requested state; otherwise the state changes and
`toggled(b)` is emitted (second component). -/
def QAction.setChecked (a : QAction) (b : Bool) : QAction × Option Bool :=
  if !a.checkable || a.checked == b then (a, none)
  else ({ a with checked := b }, some b)

/-- The properties of a `QTimer` used by the controller. -/
structure QTimer where
  active : Bool
  interval : Int
  deriving DecidableEq, Repr

/-- A freshly constructed timer: stopped, interval 0. -/
def QTimer.new : QTimer := ⟨false, 0⟩

/-- Embeds `QTimer::start()`. -/
def QTimer.start (t : QTimer) : QTimer := { t with active := true }

/-- Embeds `QTimer::stop()`. -/
def QTimer.stop (t : QTimer) : QTimer := { t with active := false }

/-- Embeds `QTimer::setInterval`. -/
def QTimer.setInterval (t : QTimer) (msec : Int) : QTimer := { t with interval := msec }

/-- The properties of a `QSpinBox` used by the controller. -/
structure QSpinBox where
  minimum : Int
  maximum : Int
  value : Int
  deriving DecidableEq, Repr

/-- A freshly constructed spin box: range 0..99, value 0. -/
def QSpinBox.new : QSpinBox := ⟨0, 99, 0⟩

/-- The value a spin box keeps for a requested value: bounded to its range. -/
def QSpinBox.bound (s : QSpinBox) (v : Int) : Int := max s.minimum (min s.maximum v)

/-- Embeds `QSpinBox::setValue`: the request is bounded to the range; when the value
changes, `valueChanged(int)` is emitted with the new value (second component). -/
def QSpinBox.setValue (s : QSpinBox) (v : Int) : QSpinBox × Option Int :=
  if s.bound v = s.value then (s, none)
  else ({ s with value := s.bound v }, some (s.bound v))

/-- Embeds `QSpinBox::setRange`: sets the range, then re-bounds the current value,
emitting `valueChanged(int)` when the value changes. -/
def QSpinBox.setRange (s : QSpinBox) (lo hi : Int) : QSpinBox × Option Int :=
  QSpinBox.setValue { s with minimum := lo, maximum := max lo hi } s.value

/-- Embeds `QString::number` on an integer: base-10 rendering. -/
def QString_number (n : Int) : String := toString n

/-! ## Instruction view scrolling (`setInstructionViewCenterAddr`) -/

/-- The row of an address, `const auto row = address / 4;` on a `uint32_t`. -/
def rowOf (address : Nat) : Nat := address % 2 ^ 32 / 4

/-- The window size, `const int nItems = indexBot - indexTop;` on `int`. -/
def nItemsOf (indexTop indexBot : Int) : Int := toInt32 (indexBot - indexTop)

/-- The comparison `row <= indexTop`: `row` is `uint32_t`, so the `int` operand
is converted to `uint32_t` first. -/
def rowLeTop (address : Nat) (indexTop : Int) : Bool :=
  decide ((rowOf address : Int) ≤ toUInt32 indexTop)

/-- The comparison `row >= indexBot`, with the same conversion. -/
def rowGeBot (address : Nat) (indexBot : Int) : Bool :=
  decide ((rowOf address : Int) ≥ toUInt32 indexBot)

/-- The argument of `scrollbar->setValue(row - nItems / 2)`: `nItems / 2` is an
`int` division (truncating), the subtraction is done in `uint32_t`, and the
result is converted to the `int` parameter of `setValue`. -/
def scrollTarget (address : Nat) (indexTop indexBot : Int) : Int :=
  toInt32 (toUInt32 ((rowOf address : Int) - toUInt32 (Int.tdiv (nItemsOf indexTop indexBot) 2)))

/-- Embeds `ProcessorTab::setInstructionViewCenterAddr`, given the rows `indexTop` and
`indexBot` that the view reports at the top-left and bottom-left corners of its
rectangle.  The result is the argument handed to the vertical scrollbar's
`setValue`, or `none` when `setValue` is not called. -/
def setInstructionViewCenterAddr (address : Nat) (indexTop indexBot : Int) : Option Int :=
  if rowLeTop address indexTop || rowGeBot address indexBot then
    some (scrollTarget address indexTop indexBot)
  else
    none

/-! ## Collaborators -/

/-- Embeds `Pipeline::ECALL`. -/
inductive ECALL where
  | none
  | print_string
  | print_int
  | print_char
  | exit
  deriving DecidableEq, Repr

/-- The collaborators of the controller, acting on a world state `σ`:
the `Pipeline` singleton, the `ProcessorHandler`, the VSRTL surface and the
modal run dialog.  Queries are read-only. -/
structure Env (σ : Type) where
  /-- Embeds `Pipeline::step`, with its return value. -/
  step : σ → σ × Int
  /-- Embeds `Pipeline::restart`. -/
  restart : σ → σ
  /-- Embeds `Pipeline::isReady`. -/
  isReady : σ → Bool
  /-- Embeds `Pipeline::isFinished`. -/
  isFinished : σ → Bool
  /-- Embeds `Pipeline::getCycleCount`. -/
  getCycleCount : σ → Int
  /-- Embeds `Pipeline::getInstructionsExecuted`. -/
  getInstructionsExecuted : σ → Int
  /-- Embeds `Pipeline::checkEcall(bool)`, returning the ECALL kind and its value. -/
  checkEcall : Bool → σ → σ × (ECALL × Int)
  /-- Embeds `ProcessorHandler::checkValidExecutionRange`. -/
  checkValidExecutionRange : σ → σ
  /-- Embeds `VSRTLWidget::clock`. -/
  vsrtlClock : σ → σ
  /-- Embeds `VSRTLWidget::rewind`. -/
  vsrtlRewind : σ → σ
  /-- Embeds `VSRTLWidget::reset`. -/
  vsrtlReset : σ → σ
  /-- Embeds `RunDialog::exec`: runs the modal dialog; `true` when accepted. -/
  runDialogExec : σ → σ × Bool

/-- Calls made to the collaborators and signals emitted by the controller, in
the order in which they happen. -/
inductive Call where
  | vsrtlClock
  | vsrtlRewind
  | vsrtlReset
  | checkValidExecutionRange
  | step
  | restart
  | checkEcall (b : Bool)
  | isReady
  | isFinished
  | runDialogExec
  | getCycleCount
  | getInstructionsExecuted
  | handleEcall
  | emitUpdate
  | emitAppendToLog (s : String)
  deriving DecidableEq, Repr

/-! ## Controller state -/

/-- The two icons of the auto-clock action. -/
inductive Icon where
  | startAutoClockIcon
  | stopAutoTimerIcon
  deriving DecidableEq, Repr

/-- What `setupSimulatorActions` creates, as far as the simulator controls go:
the five simulator actions, the auto-clock timer and the interval spin box.
(The processor-selection, display-values, fit-view and pipelining-table actions
are never touched again by the controller and are left out.) -/
structure SimulatorActions where
  m_resetAction : QAction
  m_reverseAction : QAction
  m_clockAction : QAction
  m_autoClockAction : QAction
  m_runAction : QAction
  autoClockIcon : Icon
  timer : QTimer
  m_autoClockInterval : QSpinBox
  deriving DecidableEq, Repr

/-- The state of a `ProcessorTab` together with the world it drives. -/
structure ProcessorTab (σ : Type) where
  /-- State of the collaborators. -/
  world : σ
  /-- Toolbar objects. -/
  actions : SimulatorActions
  /-- Text of `m_ui->cycleCount`. -/
  cycleCount : String
  /-- Text of `m_ui->nInstrExecuted`. -/
  nInstrExecuted : String
  /-- Text of `m_ui->console`. -/
  console : String
  /-- Collaborator calls and emitted signals so far. -/
  calls : List Call

variable {σ : Type}

/-- Record a call or an emitted signal. -/
def ProcessorTab.record (t : ProcessorTab σ) (c : Call) : ProcessorTab σ :=
  { t with calls := t.calls ++ [c] }

/-- The slot connected to `m_autoClockAction`'s `toggled(bool)`. -/
def onAutoClockToggled (a : SimulatorActions) (checked : Bool) : SimulatorActions :=
  if !checked then
    { a with timer := a.timer.stop, autoClockIcon := Icon.startAutoClockIcon }
  else
    { a with timer := a.timer.start, autoClockIcon := Icon.stopAutoTimerIcon }

/-- The slot connected to `m_autoClockInterval`'s `valueChanged(int)`. -/
def onIntervalChanged (a : SimulatorActions) (msec : Int) : SimulatorActions :=
  { a with timer := a.timer.setInterval msec }

/-- Embeds `m_autoClockAction->setChecked(b)` with the `toggled` slot connected. -/
def setAutoClockChecked (a : SimulatorActions) (b : Bool) : SimulatorActions :=
  match a.m_autoClockAction.setChecked b with
  | (act, some checked) => onAutoClockToggled { a with m_autoClockAction := act } checked
  | (act, none) => { a with m_autoClockAction := act }

/-- Embeds `m_autoClockInterval->setValue(v)` with the `valueChanged` slot connected. -/
def setAutoClockInterval (a : SimulatorActions) (v : Int) : SimulatorActions :=
  match a.m_autoClockInterval.setValue v with
  | (box, some msec) => onIntervalChanged { a with m_autoClockInterval := box } msec
  | (box, none) => { a with m_autoClockInterval := box }

/-- Embeds `ProcessorTab::setupSimulatorActions`.  The statements are followed in
source order; a signal emitted before its slot is connected reaches nobody. -/
def setupSimulatorActions : SimulatorActions :=
  let m_resetAction := QAction.new
  let m_reverseAction := QAction.new
  let m_clockAction := QAction.new
  let timer := QTimer.new
  let m_autoClockAction := QAction.new.setCheckable true
  -- `toggled` is connected here, then `setChecked(false)`
  let a : SimulatorActions :=
    { m_resetAction := m_resetAction, m_reverseAction := m_reverseAction,
      m_clockAction := m_clockAction, m_autoClockAction := m_autoClockAction,
      m_runAction := QAction.new, autoClockIcon := Icon.startAutoClockIcon,
      timer := timer, m_autoClockInterval := QSpinBox.new }
  let a := setAutoClockChecked a false
  -- `setRange(1, 10000)` comes before `valueChanged` is connected
  let a := { a with m_autoClockInterval := (a.m_autoClockInterval.setRange 1 10000).1 }
  -- `valueChanged` is connected here, then `setValue(100)`
  setAutoClockInterval a 100

/-- Embeds `ProcessorTab::enableSimulatorControls`. -/
def enableSimulatorControls (t : ProcessorTab σ) : ProcessorTab σ :=
  { t with actions :=
    { t.actions with
      m_clockAction := t.actions.m_clockAction.setEnabled true
      m_autoClockAction := t.actions.m_autoClockAction.setEnabled true
      m_runAction := t.actions.m_runAction.setEnabled true
      m_reverseAction := t.actions.m_reverseAction.setEnabled true
      m_resetAction := t.actions.m_resetAction.setEnabled true } }

/-- Embeds `ProcessorTab::updateMetrics`. -/
def updateMetrics (env : Env σ) (t : ProcessorTab σ) : ProcessorTab σ :=
  let t := t.record Call.getCycleCount
  let t := { t with cycleCount := QString_number (env.getCycleCount t.world) }
  let t := t.record Call.getInstructionsExecuted
  { t with nInstrExecuted := QString_number (env.getInstructionsExecuted t.world) }

/-- Embeds `emit update()`.  Of the connected slots, `updateMetrics` is the one that
belongs to the controller; the others (`RegisterContainerWidget::update`,
`PipelineWidget::update`, `InstructionModel::processorWasClocked`) redraw
widgets outside the controller state. -/
def emitUpdate (env : Env σ) (t : ProcessorTab σ) : ProcessorTab σ :=
  updateMetrics env (t.record Call.emitUpdate)

/-- Embeds `emit appendToLog(string)`: the connected lambda inserts the text into
the console. -/
def emitAppendToLog (t : ProcessorTab σ) (string : String) : ProcessorTab σ :=
  let t := t.record (Call.emitAppendToLog string)
  { t with console := t.console ++ string }

/-- Embeds `ProcessorTab::ProcessorTab`.  `world` is the state of the collaborators
and `cycleText`, `instrText` are the label texts that `setupUi` installs. -/
def ProcessorTab.new (world : σ) (cycleText instrText : String) : ProcessorTab σ :=
  let t : ProcessorTab σ :=
    { world := world, actions := setupSimulatorActions, cycleCount := cycleText,
      nInstrExecuted := instrText, console := "", calls := [] }
  -- "Initially, no file is loaded, disable toolbuttons"
  enableSimulatorControls t

/-- Embeds `ProcessorTab::restart`. -/
def restart (env : Env σ) (t : ProcessorTab σ) : ProcessorTab σ :=
  enableSimulatorControls (emitUpdate env t)

/-- Embeds `ProcessorTab::run`. -/
def run (env : Env σ) (t : ProcessorTab σ) : ProcessorTab σ :=
  let t := { t with actions := setAutoClockChecked t.actions false }
  let t := t.record Call.isReady
  if env.isReady t.world then
    let t := t.record Call.runDialogExec
    let r := env.runDialogExec t.world
    let t := { t with world := r.1 }
    if r.2 then
      let t := t.record Call.isFinished
      if env.isFinished t.world then
        enableSimulatorControls (emitUpdate env t)
      else t
    else t
  else t

/-- Embeds `ProcessorTab::processorFinished`. -/
def processorFinished (t : ProcessorTab σ) : ProcessorTab σ :=
  -- Disallow further clocking of the circuit
  let a := t.actions
  let a := { a with m_clockAction := a.m_clockAction.setEnabled false }
  let a := setAutoClockChecked a false
  let a := { a with m_autoClockAction := a.m_autoClockAction.setEnabled false }
  let a := { a with m_runAction := a.m_runAction.setEnabled false }
  { t with actions := a }

/-- Embeds `ProcessorTab::reset`. -/
def reset (env : Env σ) (t : ProcessorTab σ) : ProcessorTab σ :=
  let t := { t with actions := setAutoClockChecked t.actions false }
  let t := { t.record Call.vsrtlReset with world := env.vsrtlReset t.world }
  let t := { t.record Call.restart with world := env.restart t.world }
  let t := emitUpdate env t
  let t := enableSimulatorControls t
  emitAppendToLog t "\n"

/-- Embeds `ProcessorTab::rewind`. -/
def rewind (env : Env σ) (t : ProcessorTab σ) : ProcessorTab σ :=
  let t := { t.record Call.vsrtlRewind with world := env.vsrtlRewind t.world }
  let t := enableSimulatorControls t
  emitUpdate env t

/-- Embeds `ProcessorTab::handleEcall`: the result and the controller state after the
call.  The bodies of the three print cases are commented out in the source. -/
def handleEcall (t : ProcessorTab σ) (ecall_val : ECALL × Int) : Bool × ProcessorTab σ :=
  match ecall_val.1 with
  | ECALL.none => (true, t)
  | ECALL.print_string => (true, t)
  | ECALL.print_int => (true, t)
  | ECALL.print_char => (true, t)
  | ECALL.exit => (true, t)

/-- Embeds `ProcessorTab::clock`.  The block after `emit update()` is commented out in
the source. -/
def clock (env : Env σ) (t : ProcessorTab σ) : ProcessorTab σ :=
  let t := { t.record Call.vsrtlClock with world := env.vsrtlClock t.world }
  let t := { t.record Call.checkValidExecutionRange with
             world := env.checkValidExecutionRange t.world }
  let t := { t.record Call.step with world := (env.step t.world).1 }
  let ecallVal := (env.checkEcall true t.world).2
  let t := { t.record (Call.checkEcall true) with world := (env.checkEcall true t.world).1 }
  let t := if ecallVal.1 ≠ ECALL.none then (handleEcall (t.record Call.handleEcall) ecallVal).2 else t
  emitUpdate env t

/-! ## Event sequences -/

/-- The events that drive the controller after construction. -/
inductive Op where
  /-- The auto-clock action is toggled (`QAction::toggle`). -/
  | toggleAutoClock
  /-- The interval spin box is asked for a new value. -/
  | setInterval (v : Int)
  | clock
  | reset
  | rewind
  | run
  | restart
  | processorFinished
  deriving DecidableEq, Repr

/-- One event. -/
def exec (env : Env σ) (t : ProcessorTab σ) : Op → ProcessorTab σ
  | Op.toggleAutoClock =>
      { t with actions := setAutoClockChecked t.actions (!t.actions.m_autoClockAction.checked) }
  | Op.setInterval v => { t with actions := setAutoClockInterval t.actions v }
  | Op.clock => clock env t
  | Op.reset => reset env t
  | Op.rewind => rewind env t
  | Op.run => run env t
  | Op.restart => restart env t
  | Op.processorFinished => processorFinished t

/-- A sequence of events, left to right. -/
def execAll (env : Env σ) (t : ProcessorTab σ) (ops : List Op) : ProcessorTab σ :=
  ops.foldl (exec env) t

/-- The calls and signals that `f` adds to the record of `t`. -/
def callsDuring (f : ProcessorTab σ → ProcessorTab σ) (t : ProcessorTab σ) : List Call :=
  (f t).calls.drop t.calls.length

/-- The world in which `clock` asks the pipeline for a pending ECALL. -/
def worldAfterStep (env : Env σ) (t : ProcessorTab σ) : σ :=
  (env.step (env.checkValidExecutionRange (env.vsrtlClock t.world))).1

/-- The ECALL kind that `checkEcall(true)` reports during `clock`. -/
def ecallKind (env : Env σ) (t : ProcessorTab σ) : ECALL :=
  (env.checkEcall true (worldAfterStep env t)).2.1

/-- The state reached from a freshly constructed tab by a sequence of events. -/
def stateAfter (env : Env σ) (world : σ) (cycleText instrText : String) (ops : List Op) :
    ProcessorTab σ :=
  execAll env (ProcessorTab.new world cycleText instrText) ops

/-- The toolbar invariant: the auto-clock action is checkable, the timer runs
exactly when the action is checked, and the timer interval is the spin box
value, which lies in the range 1..10000 set at construction. -/
def ToolbarInv (a : SimulatorActions) : Prop :=
  a.m_autoClockAction.checkable = true ∧
    a.timer.active = a.m_autoClockAction.checked ∧
    a.timer.interval = a.m_autoClockInterval.value ∧
    a.m_autoClockInterval.minimum = 1 ∧
    a.m_autoClockInterval.maximum = 10000 ∧
    1 ≤ a.m_autoClockInterval.value ∧
    a.m_autoClockInterval.value ≤ 10000

/-! ## A concrete world for evaluation -/

/-- A small concrete engine state: cycle and instruction counters, a finished
flag and a pending ECALL. -/
structure DemoWorld where
  cycles : Int
  instrs : Int
  finished : Bool
  pending : ECALL × Int
  deriving DecidableEq, Repr

/-- Collaborators over `DemoWorld`: stepping counts a cycle and an instruction,
the run dialog runs to completion and is accepted. -/
def demoEnv : Env DemoWorld where
  step := fun w => ({ w with cycles := w.cycles + 1, instrs := w.instrs + 1 }, 0)
  restart := fun w => { w with cycles := 0, instrs := 0, finished := false }
  isReady := fun _ => true
  isFinished := fun w => w.finished
  getCycleCount := fun w => w.cycles
  getInstructionsExecuted := fun w => w.instrs
  checkEcall := fun _ w => ({ w with pending := (ECALL.none, 0) }, w.pending)
  checkValidExecutionRange := fun w => w
  vsrtlClock := fun w => w
  vsrtlRewind := fun w => w
  vsrtlReset := fun w => w
  runDialogExec := fun w => ({ w with finished := true }, true)

/-- A loaded, not yet finished program with an `exit` ECALL pending. -/
def demoWorld : DemoWorld := ⟨7, 5, false, (ECALL.exit, 0)⟩

/-! ## Theorems: instruction view scrolling -/

theorem toUInt32_of_range {x : Int} (h0 : 0 ≤ x) (h1 : x < 2 ^ 32) : toUInt32 x = x := by
  unfold toUInt32
  norm_num at h1 ⊢
  omega

theorem toInt32_of_range {x : Int} (h0 : -(2 ^ 31) ≤ x) (h1 : x < 2 ^ 31) : toInt32 x = x := by
  unfold toInt32
  norm_num at h0 h1 ⊢
  split <;> omega

theorem toInt32_toUInt32 (x : Int) : toInt32 (toUInt32 x) = toInt32 x := by
  unfold toInt32 toUInt32
  norm_num

theorem rowOf_lt (address : Nat) : rowOf address < 2 ^ 30 := by
  unfold rowOf
  norm_num
  omega

theorem rowOf_eq {address : Nat} (h : address < 2 ^ 32) : rowOf address = address / 4 := by
  unfold rowOf
  rw [Nat.mod_eq_of_lt h]

theorem scrollTarget_eq {address : Nat} {indexTop indexBot : Int} (ha : address < 2 ^ 32)
    (h0 : 0 ≤ indexTop) (h1 : indexTop ≤ indexBot) (h2 : indexBot < 2 ^ 31) :
    scrollTarget address indexTop indexBot
      = ((address / 4 : Nat) : Int) - (indexBot - indexTop) / 2 := by
  have hr := rowOf_lt address
  have hn : nItemsOf indexTop indexBot = indexBot - indexTop := by
    unfold nItemsOf
    apply toInt32_of_range <;> norm_num at h2 ⊢ <;> omega
  have hd : Int.tdiv (indexBot - indexTop) 2 = (indexBot - indexTop) / 2 :=
    Int.tdiv_eq_ediv (by omega) (by omega)
  unfold scrollTarget
  rw [hn, hd, toInt32_toUInt32, rowOf_eq ha] at *
  norm_num at h2 hr
  rw [toUInt32_of_range (by omega) (by norm_num; omega)]
  apply toInt32_of_range <;> norm_num <;> omega

theorem rowLeTop_iff {address : Nat} {indexTop : Int} (ha : address < 2 ^ 32)
    (h0 : 0 ≤ indexTop) (h1 : indexTop < 2 ^ 31) :
    rowLeTop address indexTop = true ↔ ((address / 4 : Nat) : Int) ≤ indexTop := by
  unfold rowLeTop
  rw [toUInt32_of_range h0 (by norm_num at h1 ⊢; omega), rowOf_eq ha]
  simp

theorem rowGeBot_iff {address : Nat} {indexBot : Int} (ha : address < 2 ^ 32)
    (h0 : 0 ≤ indexBot) (h1 : indexBot < 2 ^ 31) :
    rowGeBot address indexBot = true ↔ indexBot ≤ ((address / 4 : Nat) : Int) := by
  unfold rowGeBot
  rw [toUInt32_of_range h0 (by norm_num at h1 ⊢; omega), rowOf_eq ha]
  simp

theorem rowLeTop_neg_one (address : Nat) : rowLeTop address (-1) = true := by
  have hr := rowOf_lt address
  unfold rowLeTop toUInt32
  norm_num at hr ⊢
  omega

theorem setInstructionViewCenterAddr_congr {a b : Nat} (h : rowOf a = rowOf b)
    (indexTop indexBot : Int) :
    setInstructionViewCenterAddr a indexTop indexBot
      = setInstructionViewCenterAddr b indexTop indexBot := by
  unfold setInstructionViewCenterAddr rowLeTop rowGeBot scrollTarget
  rw [h]

theorem setInstructionViewCenterAddr_by_row {address : Nat} (h : address < 2 ^ 32)
    (indexTop indexBot : Int) :
    setInstructionViewCenterAddr address indexTop indexBot =
      if ((address / 4 : Nat) : Int) ≤ toUInt32 indexTop ∨
          toUInt32 indexBot ≤ ((address / 4 : Nat) : Int) then
        some (toInt32 (toUInt32 (((address / 4 : Nat) : Int)
          - toUInt32 (Int.tdiv (nItemsOf indexTop indexBot) 2))))
      else none := by
  unfold setInstructionViewCenterAddr rowLeTop rowGeBot scrollTarget
  rw [rowOf_eq h]
  by_cases hc : ((address / 4 : Nat) : Int) ≤ toUInt32 indexTop ∨
      toUInt32 indexBot ≤ ((address / 4 : Nat) : Int)
  · rw [if_pos hc, if_pos]
    simpa using hc
  · rw [if_neg hc, if_neg]
    simpa using hc

theorem setInstructionViewCenterAddr_single_row {address : Nat} (h : address < 2 ^ 32) :
    setInstructionViewCenterAddr address ((address / 4 : Nat) : Int) ((address / 4 : Nat) : Int)
      = some ((address / 4 : Nat) : Int) := by
  have h0 : (0 : Int) ≤ ((address / 4 : Nat) : Int) := Int.ofNat_nonneg _
  have h2 : ((address / 4 : Nat) : Int) < 2 ^ 31 := by
    norm_num
    omega
  have hT : rowLeTop address ((address / 4 : Nat) : Int) = true :=
    (rowLeTop_iff h h0 h2).2 (le_refl _)
  unfold setInstructionViewCenterAddr
  rw [hT, Bool.true_or, if_pos rfl, scrollTarget_eq h h0 (le_refl _) h2]
  simp

/-- C7: the instruction view is keyed by row = address / 4.  For every 32-bit
unsigned address the row is `address / 4` (rounded down) and it is below
`2 ^ 30`; `setInstructionViewCenterAddr` decides and computes with that row:
its guard compares `address / 4` with the converted `indexTop` and `indexBot`
and the value it hands to the scrollbar is `address / 4 - nItems / 2` in 32-bit
arithmetic.  Whenever the address is `4 * k + r` with `r < 4`, the row is `k`,
the controller does for it what it does for the address `4 * k`, and on a view
that shows row `k` alone it sets the scrollbar to `k`. -/
theorem row_is_address_div_four (address : Nat) (h : address < 2 ^ 32) :
    rowOf address = address / 4 ∧ rowOf address < 2 ^ 30 ∧
      (∀ indexTop indexBot : Int,
        setInstructionViewCenterAddr address indexTop indexBot =
          if ((address / 4 : Nat) : Int) ≤ toUInt32 indexTop ∨
              toUInt32 indexBot ≤ ((address / 4 : Nat) : Int) then
            some (toInt32 (toUInt32 (((address / 4 : Nat) : Int)
              - toUInt32 (Int.tdiv (nItemsOf indexTop indexBot) 2))))
          else none) ∧
      ∀ k r : Nat, r < 4 → address = 4 * k + r →
        rowOf address = k ∧
          (∀ indexTop indexBot : Int,
            setInstructionViewCenterAddr address indexTop indexBot
              = setInstructionViewCenterAddr (4 * k) indexTop indexBot) ∧
          setInstructionViewCenterAddr address (k : Int) (k : Int) = some (k : Int) := by
  refine ⟨rowOf_eq h, rowOf_lt address, setInstructionViewCenterAddr_by_row h, ?_⟩
  intro k r hr hk
  have hk4 : address / 4 = k := by omega
  have hrow : rowOf address = k := by rw [rowOf_eq h]; exact hk4
  have hrow4 : rowOf (4 * k) = k := by
    rw [rowOf_eq (by omega)]
    omega
  refine ⟨hrow, ?_, ?_⟩
  · intro indexTop indexBot
    exact setInstructionViewCenterAddr_congr (hrow.trans hrow4.symm) indexTop indexBot
  · have hs := setInstructionViewCenterAddr_single_row h
    rw [hk4] at hs
    exact hs

/-- Witness of C7 at address 4103 = 4 * 1025 + 3: the row is 1025, a view on
rows 2..10 is scrolled to 1025 - 4 = 1021 as for address 4100, and a view on
row 1025 alone is scrolled to 1025. -/
theorem row_is_address_div_four_witness :
    4103 < 2 ^ 32 ∧ rowOf 4103 = 4103 / 4 ∧ rowOf 4103 < 2 ^ 30 ∧ rowOf 4103 = 1025 ∧
      setInstructionViewCenterAddr 4103 2 10 = some 1021 ∧
      setInstructionViewCenterAddr 4103 2 10 = setInstructionViewCenterAddr 4100 2 10 ∧
      setInstructionViewCenterAddr 4103 1025 1025 = some 1025 :=
  ⟨by decide, (row_is_address_div_four 4103 (by decide)).1,
    (row_is_address_div_four 4103 (by decide)).2.1,
    ((row_is_address_div_four 4103 (by decide)).2.2.2 1025 3 (by decide) (by decide)).1,
    ((row_is_address_div_four 4103 (by decide)).2.2.1 2 10).trans (by decide),
    ((row_is_address_div_four 4103 (by decide)).2.2.2 1025 3 (by decide) (by decide)).2.1 2 10,
    ((row_is_address_div_four 4103 (by decide)).2.2.2 1025 3 (by decide) (by decide)).2.2⟩

/-- C9 as stated fails on the boundary rows: with the visible range 2..10, the
address 8 (row 2 = indexTop) and the address 40 (row 10 = indexBot) both make
the controller call the scrollbar's `setValue`. -/
theorem scroll_called_on_boundary_rows :
    (rowOf 8 = 2 ∧ setInstructionViewCenterAddr 8 2 10 = some (-2)) ∧
      (rowOf 40 = 10 ∧ setInstructionViewCenterAddr 40 2 10 = some 6) := by
  decide

/-- C9, amended: for every 32-bit address and every visible range with
`0 ≤ indexTop ≤ indexBot`, the scrollbar's `setValue` is called, with
`row - nItems / 2` where `nItems = indexBot - indexTop`, when
`row ≤ indexTop` or `row ≥ indexBot`, and it is not called when
`indexTop < row < indexBot`. -/
theorem scroll_called_iff_not_strictly_inside (address : Nat) (indexTop indexBot : Int)
    (ha : address < 2 ^ 32) (h0 : 0 ≤ indexTop) (h1 : indexTop ≤ indexBot)
    (h2 : indexBot < 2 ^ 31) :
    ((((address / 4 : Nat) : Int) ≤ indexTop ∨ indexBot ≤ ((address / 4 : Nat) : Int)) →
        setInstructionViewCenterAddr address indexTop indexBot
          = some (((address / 4 : Nat) : Int) - (indexBot - indexTop) / 2)) ∧
      ((indexTop < ((address / 4 : Nat) : Int) ∧ ((address / 4 : Nat) : Int) < indexBot) →
        setInstructionViewCenterAddr address indexTop indexBot = none) := by
  have hT := rowLeTop_iff ha h0 (lt_of_le_of_lt h1 h2)
  have hB := rowGeBot_iff ha (le_trans h0 h1) h2
  constructor
  · intro h
    have hc : (rowLeTop address indexTop || rowGeBot address indexBot) = true := by
      rw [Bool.or_eq_true, hT, hB]
      exact h
    unfold setInstructionViewCenterAddr
    rw [if_pos hc, scrollTarget_eq ha h0 h1 h2]
  · intro h
    have hc : ¬ (rowLeTop address indexTop || rowGeBot address indexBot) = true := by
      rw [Bool.or_eq_true, hT, hB]
      omega
    unfold setInstructionViewCenterAddr
    rw [if_neg hc]

/-- Witness of the amended C9 at address 20 (row 5) and the visible range 2..10. -/
theorem scroll_called_iff_not_strictly_inside_witness :
    (20 < 2 ^ 32 ∧ (0 : Int) ≤ 2 ∧ (2 : Int) ≤ 10 ∧ (10 : Int) < 2 ^ 31) ∧
      setInstructionViewCenterAddr 20 2 10 = none :=
  ⟨by decide,
    (scroll_called_iff_not_strictly_inside 20 2 10 (by decide) (by decide) (by decide)
      (by decide)).2 (by decide)⟩

/-- C10: the mixed unsigned/signed scroll arithmetic keeps the intended value.
For every 32-bit address and all `int`s `0 ≤ indexTop ≤ indexBot`, the value
handed to the scrollbar is the integer `address / 4 - (indexBot - indexTop) / 2`
(both divisions rounded down), and the unsigned comparisons `row <= indexTop`
and `row >= indexBot` agree with the comparisons of the integers.  With
`indexTop = -1` the comparison `row <= indexTop` is true for every row, so the
scrollbar's `setValue` is always called. -/
theorem scroll_arithmetic_exact :
    (∀ (address : Nat) (indexTop indexBot : Int), address < 2 ^ 32 → 0 ≤ indexTop →
        indexTop ≤ indexBot → indexBot < 2 ^ 31 →
        scrollTarget address indexTop indexBot
            = ((address / 4 : Nat) : Int) - (indexBot - indexTop) / 2 ∧
          (rowLeTop address indexTop = true ↔ ((address / 4 : Nat) : Int) ≤ indexTop) ∧
          (rowGeBot address indexBot = true ↔ indexBot ≤ ((address / 4 : Nat) : Int))) ∧
      (∀ (address : Nat) (indexBot : Int),
        rowLeTop address (-1) = true ∧
          setInstructionViewCenterAddr address (-1) indexBot
            = some (scrollTarget address (-1) indexBot)) := by
  constructor
  · intro address indexTop indexBot ha h0 h1 h2
    exact ⟨scrollTarget_eq ha h0 h1 h2, rowLeTop_iff ha h0 (lt_of_le_of_lt h1 h2),
      rowGeBot_iff ha (le_trans h0 h1) h2⟩
  · intro address indexBot
    refine ⟨rowLeTop_neg_one address, ?_⟩
    unfold setInstructionViewCenterAddr
    rw [rowLeTop_neg_one]
    rfl

/-- Witness of C10 at address 8 (row 2) and the visible range 10..30: the value
handed to the scrollbar is 2 - 10 = -8. -/
theorem scroll_arithmetic_exact_witness :
    (8 < 2 ^ 32 ∧ (0 : Int) ≤ 10 ∧ (10 : Int) ≤ 30 ∧ (30 : Int) < 2 ^ 31) ∧
      scrollTarget 8 10 30 = -8 :=
  ⟨by decide,
    (scroll_arithmetic_exact.1 8 10 30 (by decide) (by decide) (by decide) (by decide)).1⟩

/-! ## Theorems: calls and signals -/

theorem callsDuring_of_append (f : ProcessorTab σ → ProcessorTab σ) (t : ProcessorTab σ)
    (l : List Call) (h : (f t).calls = t.calls ++ l) : callsDuring f t = l := by
  unfold callsDuring
  rw [h]
  simp

theorem handleEcall_eq (t : ProcessorTab σ) (ecall_val : ECALL × Int) :
    handleEcall t ecall_val = (true, t) := by
  unfold handleEcall
  cases ecall_val.1 <;> rfl

theorem clock_calls (env : Env σ) (t : ProcessorTab σ) :
    (clock env t).calls = t.calls ++
      ([Call.vsrtlClock, Call.checkValidExecutionRange, Call.step, Call.checkEcall true] ++
        (if ecallKind env t ≠ ECALL.none then [Call.handleEcall] else []) ++
        [Call.emitUpdate, Call.getCycleCount, Call.getInstructionsExecuted]) := by
  unfold clock ecallKind worldAfterStep
  simp only [handleEcall_eq]
  split <;> simp [emitUpdate, updateMetrics, ProcessorTab.record]

theorem reset_calls (env : Env σ) (t : ProcessorTab σ) :
    (reset env t).calls = t.calls ++
      [Call.vsrtlReset, Call.restart, Call.emitUpdate, Call.getCycleCount,
        Call.getInstructionsExecuted, Call.emitAppendToLog "\n"] := by
  simp [reset, emitAppendToLog, enableSimulatorControls, emitUpdate, updateMetrics,
    ProcessorTab.record]

theorem rewind_calls (env : Env σ) (t : ProcessorTab σ) :
    (rewind env t).calls = t.calls ++
      [Call.vsrtlRewind, Call.emitUpdate, Call.getCycleCount,
        Call.getInstructionsExecuted] := by
  simp [rewind, enableSimulatorControls, emitUpdate, updateMetrics, ProcessorTab.record]

/-- C3: ECALL handling is a stub.  For every ECALL kind and every value,
`handleEcall` returns `true` and leaves the controller state (console text and
toolbar included) as it was, so `exit` gives the same result as the print
kinds; and `clock` calls `handleEcall` exactly when `checkEcall(true)` reported
a kind other than `none`. -/
theorem handleEcall_is_stub (env : Env σ) (t : ProcessorTab σ) :
    (∀ (kind : ECALL) (value : Int), handleEcall t (kind, value) = (true, t)) ∧
      (Call.handleEcall ∈ callsDuring (clock env) t ↔ ecallKind env t ≠ ECALL.none) := by
  refine ⟨fun kind value => handleEcall_eq t (kind, value), ?_⟩
  rw [callsDuring_of_append _ _ _ (clock_calls env t)]
  by_cases h : ecallKind env t = ECALL.none <;> simp [h]

/-- C6: each of `clock`, `reset` and `rewind` forwards the event and then
broadcasts.  `clock` calls the surface's `clock`, `checkValidExecutionRange`,
`Pipeline::step` and `Pipeline::checkEcall(true)` once each in this order;
`reset` calls the surface's `reset`, then `Pipeline::restart`, once each;
`rewind` calls the surface's `rewind` once; and each of the three emits
`update` once, after those calls (the two counter queries that follow belong to
the `updateMetrics` slot run by the signal). -/
theorem forward_then_broadcast (env : Env σ) (t : ProcessorTab σ) :
    callsDuring (clock env) t =
        [Call.vsrtlClock, Call.checkValidExecutionRange, Call.step, Call.checkEcall true] ++
          (if ecallKind env t ≠ ECALL.none then [Call.handleEcall] else []) ++
          [Call.emitUpdate, Call.getCycleCount, Call.getInstructionsExecuted] ∧
      callsDuring (reset env) t =
        [Call.vsrtlReset, Call.restart, Call.emitUpdate, Call.getCycleCount,
          Call.getInstructionsExecuted, Call.emitAppendToLog "\n"] ∧
      callsDuring (rewind env) t =
        [Call.vsrtlRewind, Call.emitUpdate, Call.getCycleCount,
          Call.getInstructionsExecuted] :=
  ⟨callsDuring_of_append _ _ _ (clock_calls env t),
    callsDuring_of_append _ _ _ (reset_calls env t),
    callsDuring_of_append _ _ _ (rewind_calls env t)⟩

/-! ## Theorems: metrics -/

theorem clock_world (env : Env σ) (t : ProcessorTab σ) :
    (clock env t).world = (env.checkEcall true (worldAfterStep env t)).1 := by
  unfold clock worldAfterStep
  simp only [handleEcall_eq]
  split <;> rfl

theorem emitUpdate_metrics (env : Env σ) (t : ProcessorTab σ) :
    (emitUpdate env t).world = t.world ∧
      (emitUpdate env t).cycleCount = QString_number (env.getCycleCount t.world) ∧
      (emitUpdate env t).nInstrExecuted
        = QString_number (env.getInstructionsExecuted t.world) :=
  ⟨rfl, rfl, rfl⟩

/-- C2: after each of `clock`, `reset` and `rewind` the view reflects the
engine.  When the operation returns, the world is the one left by the
operation's last engine call, the cycle-count text is the decimal rendering of
`getCycleCount` in that world and the instructions-executed text is the decimal
rendering of `getInstructionsExecuted` in that world. -/
theorem metrics_reflect_engine (env : Env σ) (t : ProcessorTab σ) :
    ((clock env t).world = (env.checkEcall true (worldAfterStep env t)).1 ∧
        (clock env t).cycleCount = toString (env.getCycleCount (clock env t).world) ∧
        (clock env t).nInstrExecuted
          = toString (env.getInstructionsExecuted (clock env t).world)) ∧
      ((reset env t).world = env.restart (env.vsrtlReset t.world) ∧
        (reset env t).cycleCount = toString (env.getCycleCount (reset env t).world) ∧
        (reset env t).nInstrExecuted
          = toString (env.getInstructionsExecuted (reset env t).world)) ∧
      ((rewind env t).world = env.vsrtlRewind t.world ∧
        (rewind env t).cycleCount = toString (env.getCycleCount (rewind env t).world) ∧
        (rewind env t).nInstrExecuted
          = toString (env.getInstructionsExecuted (rewind env t).world)) := by
  refine ⟨⟨clock_world env t, ?_, ?_⟩, ⟨rfl, rfl, rfl⟩, ⟨rfl, rfl, rfl⟩⟩
  · unfold clock
    simp only [handleEcall_eq]
    split <;> rfl
  · unfold clock
    simp only [handleEcall_eq]
    split <;> rfl

/-! ## Theorems: toolbar state -/

theorem toolbarInv_setup : ToolbarInv setupSimulatorActions := by
  unfold ToolbarInv
  decide

theorem toolbarInv_setChecked {a : SimulatorActions} (h : ToolbarInv a) (b : Bool) :
    ToolbarInv (setAutoClockChecked a b) ∧
      (setAutoClockChecked a b).m_autoClockAction.checked = b := by
  obtain ⟨h1, h2, h3⟩ := h
  unfold setAutoClockChecked QAction.setChecked
  by_cases hc : a.m_autoClockAction.checked = b
  · simp [h1, hc, ToolbarInv, h2, h3]
  · cases b <;>
      simp [h1, hc, ToolbarInv, h3, onAutoClockToggled, QTimer.stop, QTimer.start]

theorem toolbarInv_setInterval {a : SimulatorActions} (h : ToolbarInv a) (v : Int) :
    ToolbarInv (setAutoClockInterval a v) := by
  obtain ⟨h1, h2, h3, h4, h5, h6, h7⟩ := h
  unfold setAutoClockInterval QSpinBox.setValue
  by_cases hc : a.m_autoClockInterval.bound v = a.m_autoClockInterval.value
  · simp [hc, ToolbarInv, h1, h2, h3, h4, h5, h6, h7]
  · have hb : 1 ≤ a.m_autoClockInterval.bound v ∧ a.m_autoClockInterval.bound v ≤ 10000 := by
      unfold QSpinBox.bound
      rw [h4, h5]
      omega
    simp [hc, ToolbarInv, h1, h2, h4, h5, hb, onIntervalChanged, QTimer.setInterval]

theorem toolbarInv_enable {t : ProcessorTab σ} (h : ToolbarInv t.actions) :
    ToolbarInv (enableSimulatorControls t).actions := h

theorem emitUpdate_actions (env : Env σ) (t : ProcessorTab σ) :
    (emitUpdate env t).actions = t.actions := rfl

theorem clock_actions (env : Env σ) (t : ProcessorTab σ) :
    (clock env t).actions = t.actions := by
  unfold clock
  simp only [handleEcall_eq]
  split <;> rfl

theorem toolbarInv_reset (env : Env σ) {t : ProcessorTab σ} (h : ToolbarInv t.actions) :
    ToolbarInv (reset env t).actions ∧
      (reset env t).actions.m_autoClockAction.checked = false :=
  toolbarInv_setChecked h false

theorem toolbarInv_run (env : Env σ) {t : ProcessorTab σ} (h : ToolbarInv t.actions) :
    ToolbarInv (run env t).actions ∧
      (run env t).actions.m_autoClockAction.checked = false := by
  have hs := toolbarInv_setChecked h false
  unfold run
  simp only [ProcessorTab.record]
  split
  · split
    · split
      · exact hs
      · exact hs
    · exact hs
  · exact hs

theorem toolbarInv_processorFinished {t : ProcessorTab σ} (h : ToolbarInv t.actions) :
    ToolbarInv (processorFinished t).actions ∧
      (processorFinished t).actions.m_autoClockAction.checked = false :=
  toolbarInv_setChecked (a := { t.actions with
    m_clockAction := t.actions.m_clockAction.setEnabled false }) h false

theorem toolbarInv_exec (env : Env σ) {t : ProcessorTab σ} (h : ToolbarInv t.actions)
    (op : Op) : ToolbarInv (exec env t op).actions := by
  cases op with
  | toggleAutoClock => exact (toolbarInv_setChecked h _).1
  | setInterval v => exact toolbarInv_setInterval h v
  | clock => exact (clock_actions env t).symm ▸ h
  | reset => exact (toolbarInv_reset env h).1
  | rewind => exact h
  | run => exact (toolbarInv_run env h).1
  | restart => exact h
  | processorFinished => exact (toolbarInv_processorFinished h).1

theorem toolbarInv_execAll (env : Env σ) (ops : List Op) :
    ∀ {t : ProcessorTab σ}, ToolbarInv t.actions → ToolbarInv (execAll env t ops).actions := by
  induction ops with
  | nil => intro t h; exact h
  | cons op ops ih => intro t h; exact ih (toolbarInv_exec env h op)

theorem toolbarInv_stateAfter (env : Env σ) (world : σ) (cycleText instrText : String)
    (ops : List Op) : ToolbarInv (stateAfter env world cycleText instrText ops).actions :=
  toolbarInv_execAll env ops (t := ProcessorTab.new world cycleText instrText) toolbarInv_setup

theorem setInterval_value {a : SimulatorActions} (h : ToolbarInv a) (v : Int) :
    (setAutoClockInterval a v).m_autoClockInterval.value = max 1 (min 10000 v) := by
  obtain ⟨_, _, _, h4, h5, _, _⟩ := h
  unfold setAutoClockInterval QSpinBox.setValue
  by_cases hc : a.m_autoClockInterval.bound v = a.m_autoClockInterval.value
  · simp only [hc, if_true]
    rw [← hc, QSpinBox.bound, h4, h5]
  · simp only [hc, if_false, onIntervalChanged]
    rw [QSpinBox.bound, h4, h5]

theorem run_enables_when_finished (env : Env σ) (t : ProcessorTab σ)
    (hReady : env.isReady t.world = true)
    (hAccepted : (env.runDialogExec t.world).2 = true)
    (hFinished : env.isFinished (env.runDialogExec t.world).1 = true) :
    (run env t).actions.m_clockAction.enabled = true ∧
      (run env t).actions.m_autoClockAction.enabled = true ∧
      (run env t).actions.m_runAction.enabled = true := by
  unfold run
  simp [ProcessorTab.record, hReady, hAccepted, hFinished, enableSimulatorControls,
    QAction.setEnabled]

theorem setAutoClockChecked_frame (a : SimulatorActions) (b : Bool) :
    (setAutoClockChecked a b).m_clockAction = a.m_clockAction ∧
      (setAutoClockChecked a b).m_runAction = a.m_runAction ∧
      (setAutoClockChecked a b).m_reverseAction = a.m_reverseAction ∧
      (setAutoClockChecked a b).m_resetAction = a.m_resetAction ∧
      (setAutoClockChecked a b).m_autoClockAction.enabled = a.m_autoClockAction.enabled := by
  unfold setAutoClockChecked QAction.setChecked
  by_cases hc : (!a.m_autoClockAction.checkable || a.m_autoClockAction.checked == b) = true
  · rw [if_pos hc]
    exact ⟨rfl, rfl, rfl, rfl, rfl⟩
  · rw [if_neg hc]
    cases b <;> exact ⟨rfl, rfl, rfl, rfl, rfl⟩

theorem processorFinished_disables (t : ProcessorTab σ) :
    (processorFinished t).actions.m_clockAction.enabled = false ∧
      (processorFinished t).actions.m_autoClockAction.enabled = false ∧
      (processorFinished t).actions.m_runAction.enabled = false := by
  have hf := setAutoClockChecked_frame
    { t.actions with m_clockAction := t.actions.m_clockAction.setEnabled false } false
  refine ⟨?_, rfl, rfl⟩
  unfold processorFinished
  simp only [hf.1]
  rfl

/-- C1 on the code: `run` finds the pipeline ready, the run dialog is accepted
and `isFinished` is true afterwards, yet when `run` returns the clock,
auto-clock and run actions are enabled. -/
theorem run_finished_controls_enabled :
    demoEnv.isReady demoWorld = true ∧
      (demoEnv.runDialogExec demoWorld).2 = true ∧
      demoEnv.isFinished (run demoEnv (ProcessorTab.new demoWorld "0" "0")).world = true ∧
      (run demoEnv (ProcessorTab.new demoWorld "0" "0")).actions.m_clockAction.enabled = true ∧
      (run demoEnv (ProcessorTab.new demoWorld "0" "0")).actions.m_autoClockAction.enabled
        = true ∧
      (run demoEnv (ProcessorTab.new demoWorld "0" "0")).actions.m_runAction.enabled = true := by
  refine ⟨rfl, rfl, rfl, rfl, rfl, rfl⟩

/-- C8 on the code: right after the constructor returns, the clock,
auto-clock, run, rewind and reset actions are all enabled. -/
theorem constructor_controls_enabled (world : σ) (cycleText instrText : String) :
    (ProcessorTab.new world cycleText instrText).actions.m_clockAction.enabled = true ∧
      (ProcessorTab.new world cycleText instrText).actions.m_autoClockAction.enabled = true ∧
      (ProcessorTab.new world cycleText instrText).actions.m_runAction.enabled = true ∧
      (ProcessorTab.new world cycleText instrText).actions.m_reverseAction.enabled = true ∧
      (ProcessorTab.new world cycleText instrText).actions.m_resetAction.enabled = true :=
  ⟨rfl, rfl, rfl, rfl, rfl⟩

/-- C4: the auto-clock interval stays within 1 to 10000 ms.  Right after
`setupSimulatorActions` the timer interval is 100 (the initial `setValue(100)`
reaches the timer); in every state reached from construction by any sequence of
events, spin-box requests included, the timer interval equals the spin box
value and lies in 1..10000; and a request `v` leaves the spin box at `v`
bounded to 1..10000. -/
theorem autoClock_interval_in_range (env : Env σ) (world : σ) (cycleText instrText : String)
    (ops : List Op) (v : Int) :
    setupSimulatorActions.timer.interval = 100 ∧
      (stateAfter env world cycleText instrText ops).actions.timer.interval
        = (stateAfter env world cycleText instrText ops).actions.m_autoClockInterval.value ∧
      1 ≤ (stateAfter env world cycleText instrText ops).actions.timer.interval ∧
      (stateAfter env world cycleText instrText ops).actions.timer.interval ≤ 10000 ∧
      (stateAfter env world cycleText instrText (ops ++ [Op.setInterval v])).actions.m_autoClockInterval.value
        = max 1 (min 10000 v) := by
  have h := toolbarInv_stateAfter env world cycleText instrText ops
  have hv := setInterval_value h v
  obtain ⟨_, _, h3, _, _, h6, h7⟩ := h
  refine ⟨by decide, h3, h3 ▸ h6, h3 ▸ h7, ?_⟩
  unfold stateAfter execAll at hv ⊢
  rw [List.foldl_append]
  exact hv

/-- C5: automatic stepping is cancelled exactly by unchecking the auto-clock
action.  In every state reached from construction by toggling the auto-clock
action, changing the interval and calling `clock`, `reset`, `rewind`, `run`,
`restart` and `processorFinished`, the timer is running if and only if the
auto-clock action is checked; the timer is not running right after setup; and
`reset`, `run` and `processorFinished` each leave the action unchecked and the
timer stopped. -/
theorem autoClock_timer_iff_checked (env : Env σ) (world : σ) (cycleText instrText : String)
    (ops : List Op) :
    ((stateAfter env world cycleText instrText ops).actions.timer.active = true ↔
        (stateAfter env world cycleText instrText ops).actions.m_autoClockAction.checked
          = true) ∧
      setupSimulatorActions.timer.active = false ∧
      ((reset env (stateAfter env world cycleText instrText ops)).actions.m_autoClockAction.checked
          = false ∧
        (reset env (stateAfter env world cycleText instrText ops)).actions.timer.active
          = false) ∧
      ((run env (stateAfter env world cycleText instrText ops)).actions.m_autoClockAction.checked
          = false ∧
        (run env (stateAfter env world cycleText instrText ops)).actions.timer.active
          = false) ∧
      ((processorFinished (stateAfter env world cycleText instrText ops)).actions.m_autoClockAction.checked
          = false ∧
        (processorFinished (stateAfter env world cycleText instrText ops)).actions.timer.active
          = false) := by
  have h := toolbarInv_stateAfter env world cycleText instrText ops
  have hr := toolbarInv_reset env h
  have hn := toolbarInv_run env h
  have hp := toolbarInv_processorFinished h
  refine ⟨by rw [h.2.1], by decide, ⟨hr.2, ?_⟩, ⟨hn.2, ?_⟩, ⟨hp.2, ?_⟩⟩
  · rw [hr.1.2.1, hr.2]
  · rw [hn.1.2.1, hn.2]
  · rw [hp.1.2.1, hp.2]

end Ripes
